import Mathlib

/-!
Verification of `gecode/support/shared-array.hh`: the reference-counted
shared array consisting of the backing store `SAO<T>` and the handle
`SharedArray<T>` built on the `SharedHandle` base class.

The embedding is a shallow one.  Machine memory is modelled by an explicit
heap of stores; a store's element buffer is a total function `Int → T`
(`none` models the NULL pointer), so that raw, uninitialized allocation is
represented by an arbitrary "junk" contents function passed in by the
caller of each allocating operation.  Debug assertions (`assert(...)` in
the source) are modelled by the `Except Violation` monad: a failed
assertion is `.error .assertFail`.
-/

/-- A contract violation: a failed debug assertion, or an access through a
dangling or NULL pointer (undefined behaviour in the source). -/
inductive Violation where
  | assertFail
  | nullAccess
deriving DecidableEq, Repr

/-- The backing store `SAO<T>`: an element buffer `a` (`none` models the
NULL pointer, `some f` an allocated buffer whose memory contents are `f`)
and the element count `n` (a C `int`, hence `Int`). -/
structure SAO (T : Type) where
  a : Option (Int → T)
  n : Int

/-- `SAO<T>::SAO(int n0)`: sets `n := n0` and allocates the buffer only
when `n0 > 0` (`a = (n>0) ? malloc(...) : NULL`).  The fresh buffer's raw
contents are the caller-supplied `junk` (malloc does not initialize). -/
def SAO.construct {T : Type} (n0 : Int) (junk : Int → T) : SAO T :=
  { a := if n0 > 0 then some junk else none, n := n0 }

/-- `SAO<T>::size()`: returns `n`. -/
def SAO.size {T : Type} (s : SAO T) : Int :=
  s.n

/-- `SAO<T>::operator[](int i)` (read form): asserts `(i>=0) && (i<n)`,
then reads `a[i]`. -/
def SAO.get {T : Type} (s : SAO T) (i : Int) : Except Violation T :=
  if (0 ≤ i) ∧ (i < s.n) then
    match s.a with
    | some f => .ok (f i)
    | none   => .error .nullAccess
  else .error .assertFail

/-- `SAO<T>::operator[](int i)` (mutable form, used as the target of an
assignment): asserts `(i>=0) && (i<n)`, then writes `v` into slot `i` of
the buffer. -/
def SAO.set {T : Type} (s : SAO T) (i : Int) (v : T) : Except Violation (SAO T) :=
  if (0 ≤ i) ∧ (i < s.n) then
    match s.a with
    | some f => .ok { s with a := some (fun j => if j = i then v else f j) }
    | none   => .error .nullAccess
  else .error .assertFail

/-- The element-copying loop of `SAO<T>::copy`:
`for (int i=n; i--;) new (&(o->a[i])) T(a[i]);`.
`copyLoop src k dst` performs the remaining `k` iterations (the loop
visits `i = k-1, k-2, ..., 0`), returning the written destination buffer
together with the trace of indices in the order they were copied. -/
def copyLoop {T : Type} (src : Int → T) : Nat → (Int → T) → ((Int → T) × List Int)
  | 0, dst => (dst, [])
  | k+1, dst =>
      let r := copyLoop src k (fun j => if j = (k : Int) then src k else dst j)
      (r.1, (k : Int) :: r.2)

/-- `SAO<T>::copy()`: allocates a new `SAO<T>(n)` and copy-constructs each
element of the source into it, for `i = n-1` down to `0`.  Returns the new
store together with the trace of copied indices in loop order.  (The
source guarantees `n ≥ 0` for every store that `copy` is invoked on, per
the `count >= 0` invariant; the loop is modelled for that case.) -/
def SAO.copyFull {T : Type} (s : SAO T) (junk : Int → T) : SAO T × List Int :=
  let o := SAO.construct s.n junk
  match s.a, o.a with
  | some src, some dst =>
      let r := copyLoop src s.n.toNat dst
      ({ o with a := some r.1 }, r.2)
  | _, _ => (o, [])

/-- The new store returned by `SAO<T>::copy()`. -/
def SAO.copy {T : Type} (s : SAO T) (junk : Int → T) : SAO T :=
  (s.copyFull junk).1

/-- The order in which `SAO<T>::copy()` copies element slots. -/
def SAO.copyTrace {T : Type} (s : SAO T) (junk : Int → T) : List Int :=
  (s.copyFull junk).2

/-- The index trace of the destructor loop of `SAO<T>::~SAO`:
`for (int i=n; i--;) a[i].~T();` visits `i = k-1, ..., 0` when `k`
iterations remain. -/
def destructTrace : Nat → List Int
  | 0 => []
  | k+1 => (k : Int) :: destructTrace k

/-- `SAO<T>::~SAO()`: if `n > 0`, destroys each element for `i = n-1` down
to `0` and then calls `Memory::free(a)`; otherwise does nothing.  The
observable behaviour is the trace of destructed element indices (in
order) and whether the raw storage was freed. -/
def SAO.destruct {T : Type} (s : SAO T) : List Int × Bool :=
  if 0 < s.n then (destructTrace s.n.toNat, true) else ([], false)

/-- A store living on the heap, together with its `SharedObject`
reference count (the reference-counting base class is external to this
file; the count is modelled from the spec). -/
structure HeapEntry (T : Type) where
  sao : SAO T
  rc : Nat

/-- The heap: a list of allocated stores; a location is an index into the
list, and allocation appends. -/
structure Heap (T : Type) where
  mem : List (HeapEntry T)

/-- Replace the entry at location `l` by `f` of it (no-op off the end). -/
def setEntry {T : Type} : List (HeapEntry T) → Nat → (HeapEntry T → HeapEntry T) → List (HeapEntry T)
  | [], _, _ => []
  | e :: es, 0, f => f e :: es
  | e :: es, k+1, f => e :: setEntry es k f

/-- Allocate a new store on the heap with reference count 1 (a freshly
constructed shared object has exactly its creating handle as owner).  The
new store's location is the previous `mem.length`. -/
def Heap.alloc {T : Type} (h : Heap T) (s : SAO T) : Heap T :=
  { mem := h.mem ++ [{ sao := s, rc := 1 }] }

/-- Overwrite the store at location `l`, keeping its reference count. -/
def Heap.setSAO {T : Type} (h : Heap T) (l : Nat) (s : SAO T) : Heap T :=
  { mem := setEntry h.mem l (fun e => { e with sao := s }) }

/-- Increment the reference count of the store at location `l`. -/
def Heap.incRC {T : Type} (h : Heap T) (l : Nat) : Heap T :=
  { mem := setEntry h.mem l (fun e => { e with rc := e.rc + 1 }) }

/-- Modelled from the spec: the `SharedHandle` base class of
`gecode/kernel.hh` is not under `src/`; per the spec a handle holds "a
reference to a Backing Store, or to nothing (the uninitialized state)".
`obj` is the result of the protected `object()` accessor: `none` models
the NULL pointer. -/
structure SharedHandle where
  obj : Option Nat
deriving DecidableEq, Repr

/-- `SharedArray<T>::SharedArray(void)`: a default-constructed handle is
not yet initialized (its `object()` is NULL). -/
def SharedArray.mkEmpty : SharedHandle :=
  { obj := none }

/-- `SharedArray<T>::SharedArray(int n)`: constructs `new SAO<T>(n)` on
the heap (reference count 1, per the spec's ownership protocol) and binds
the handle to it. -/
def SharedArray.mkN {T : Type} (h : Heap T) (n : Int) (junk : Int → T) :
    Heap T × SharedHandle :=
  (h.alloc (SAO.construct n junk), { obj := some h.mem.length })

/-- Modelled from the spec: `SharedHandle`'s copy constructor (in
`gecode/kernel.hh`, not under `src/`), used by
`SharedArray<T>::SharedArray(const SharedArray<T>&)`.  Per the spec: "if
`H` is uninitialized, result is uninitialized.  If `H` is initialized,
result references the *same* Backing Store as `H` and the store's
reference count is incremented by one." -/
def SharedHandle.copyCtor {T : Type} (h : Heap T) (src : SharedHandle) :
    Heap T × SharedHandle :=
  match src.obj with
  | none => (h, { obj := none })
  | some l => (h.incRC l, { obj := some l })

/-- `SharedArray<T>::init(int n)`: asserts `object() == NULL`, then binds
the handle to a fresh `new SAO<T>(n)` (via the `object(...)` setter of the
base class). -/
def SharedArray.init {T : Type} (h : Heap T) (hdl : SharedHandle) (n : Int)
    (junk : Int → T) : Except Violation (Heap T × SharedHandle) :=
  match hdl.obj with
  | none => .ok (h.alloc (SAO.construct n junk), { obj := some h.mem.length })
  | some _ => .error .assertFail

/-- `SharedArray<T>::operator[](int i)` (read form): asserts
`object() != NULL`, then delegates to the store's `operator[]`. -/
def SharedArray.get {T : Type} (h : Heap T) (hdl : SharedHandle) (i : Int) :
    Except Violation T :=
  match hdl.obj with
  | none => .error .assertFail
  | some l =>
    match h.mem[l]? with
    | none => .error .nullAccess
    | some e => e.sao.get i

/-- `SharedArray<T>::operator[](int i)` (mutable form, used as the target
of an assignment): asserts `object() != NULL`, then writes through the
store's `operator[]`. -/
def SharedArray.set {T : Type} (h : Heap T) (hdl : SharedHandle) (i : Int) (v : T) :
    Except Violation (Heap T) :=
  match hdl.obj with
  | none => .error .assertFail
  | some l =>
    match h.mem[l]? with
    | none => .error .nullAccess
    | some e =>
      match e.sao.set i v with
      | .ok s => .ok (h.setSAO l s)
      | .error w => .error w

/-- `SharedArray<T>::size()`: asserts `object() != NULL`, then delegates
to the store's `size()`. -/
def SharedArray.size {T : Type} (h : Heap T) (hdl : SharedHandle) :
    Except Violation Int :=
  match hdl.obj with
  | none => .error .assertFail
  | some l =>
    match h.mem[l]? with
    | none => .error .nullAccess
    | some e => .ok e.sao.size

/-- Forcing a deep copy of the store at location `l` (the
`SharedObject::copy` hook invoked through the ownership protocol):
allocates `SAO<T>::copy()`'s result as a brand-new store on the heap and
returns a handle bound to it. -/
def Heap.copyStore {T : Type} (h : Heap T) (l : Nat) (junk : Int → T) :
    Heap T × SharedHandle :=
  match h.mem[l]? with
  | none => (h, { obj := none })
  | some e => (h.alloc (e.sao.copy junk), { obj := some h.mem.length })

/-- Well-formedness of a store as established by `SAO<T>::SAO`: the
buffer is allocated exactly when `n > 0`. -/
def SAO.wf {T : Type} (s : SAO T) : Prop :=
  s.a.isSome = decide (0 < s.n)

/-- The operations a caller can perform on a handle after construction:
element read, element write, `size()`, copy-constructing another handle
from it, and an (illegal, asserted) second `init`. -/
inductive HOp (T : Type) where
  | read (i : Int)
  | write (i : Int) (v : T)
  | length
  | copyOut
  | reinit (n : Int) (junk : Int → T)

/-- One operation on a handle, returning the heap and the handle
afterwards.  A failed assertion aborts the operation (it cannot modify
the handle), so the handle is returned unchanged in that case. -/
def stepHandle {T : Type} (h : Heap T) (hdl : SharedHandle) : HOp T → Heap T × SharedHandle
  | .read _ => (h, hdl)
  | .write i v =>
      match SharedArray.set h hdl i v with
      | .ok h2 => (h2, hdl)
      | .error _ => (h, hdl)
  | .length => (h, hdl)
  | .copyOut => ((SharedHandle.copyCtor h hdl).1, hdl)
  | .reinit n junk =>
      match SharedArray.init h hdl n junk with
      | .ok r => r
      | .error _ => (h, hdl)

/-- Run a sequence of operations on a handle. -/
def runOps {T : Type} (h : Heap T) (hdl : SharedHandle) : List (HOp T) → Heap T × SharedHandle
  | [] => (h, hdl)
  | op :: ops => runOps (stepHandle h hdl op).1 (stepHandle h hdl op).2 ops

/-! ## Helper lemmas -/

theorem getElem_append_last {α : Type} (xs : List α) (x : α) :
    (xs ++ [x])[xs.length]? = some x := by
  simp

theorem getElem_append_lt {α : Type} (xs ys : List α) (l : Nat) (hl : l < xs.length) :
    (xs ++ ys)[l]? = xs[l]? := by
  rw [List.getElem?_append_left hl]

theorem setEntry_getElem_eq {T : Type} (xs : List (HeapEntry T)) (l : Nat)
    (f : HeapEntry T → HeapEntry T) :
    (setEntry xs l f)[l]? = (xs[l]?).map f := by
  induction xs generalizing l with
  | nil => simp [setEntry]
  | cons e es ih =>
    cases l with
    | zero => simp [setEntry]
    | succ k => simpa [setEntry] using ih k

theorem setEntry_getElem_ne {T : Type} (xs : List (HeapEntry T)) (l l' : Nat)
    (f : HeapEntry T → HeapEntry T) (hne : l' ≠ l) :
    (setEntry xs l f)[l']? = xs[l']? := by
  induction xs generalizing l l' with
  | nil => simp [setEntry]
  | cons e es ih =>
    cases l with
    | zero =>
      cases l' with
      | zero => exact absurd rfl hne
      | succ k => simp [setEntry]
    | succ k =>
      cases l' with
      | zero => simp [setEntry]
      | succ k2 => simpa [setEntry] using ih k k2 (fun hh => hne (by rw [hh]))

theorem copyLoop_fst {T : Type} (src : Int → T) :
    ∀ (k : Nat) (dst : Int → T) (j : Int),
      (copyLoop src k dst).1 j = if 0 ≤ j ∧ j < (k : Int) then src j else dst j
  | 0, dst, j => by
      rw [if_neg (show ¬(0 ≤ j ∧ j < ((0 : Nat) : Int)) by omega)]
      rfl
  | k+1, dst, j => by
      have hcast : ((k+1 : Nat) : Int) = (k : Int) + 1 := by push_cast; ring
      simp only [copyLoop]
      rw [copyLoop_fst src k, hcast]
      by_cases h3 : j = (k : Int)
      · subst h3
        rw [if_neg (show ¬(0 ≤ (k : Int) ∧ (k : Int) < (k : Int)) by omega),
            if_pos (show 0 ≤ (k : Int) ∧ (k : Int) < (k : Int) + 1 by omega)]
        exact if_pos rfl
      · by_cases h1 : 0 ≤ j ∧ j < (k : Int)
        · rw [if_pos h1, if_pos (show 0 ≤ j ∧ j < (k : Int) + 1 by omega)]
        · rw [if_neg h1, if_neg (show ¬(0 ≤ j ∧ j < (k : Int) + 1) by omega)]
          exact if_neg h3

theorem copyLoop_snd {T : Type} (src : Int → T) :
    ∀ (k : Nat) (dst : Int → T), (copyLoop src k dst).2 = destructTrace k
  | 0, _ => rfl
  | k+1, dst => by
      simp only [copyLoop, destructTrace]
      rw [copyLoop_snd src k]

theorem destructTrace_eq_revRange (k : Nat) :
    destructTrace k = (List.range k).reverse.map Int.ofNat := by
  induction k with
  | zero => rfl
  | succ k ih => simp [destructTrace, List.range_succ, ih]

theorem destructTrace_mem (k : Nat) (i : Int) :
    i ∈ destructTrace k ↔ 0 ≤ i ∧ i < (k : Int) := by
  induction k with
  | zero => simp [destructTrace]
  | succ k ih =>
    simp only [destructTrace, List.mem_cons, ih]
    push_cast
    omega

theorem destructTrace_nodup (k : Nat) : (destructTrace k).Nodup := by
  induction k with
  | zero => simp [destructTrace]
  | succ k ih =>
    refine List.Nodup.cons ?_ ih
    rw [destructTrace_mem]
    omega

theorem destructTrace_pairwise (k : Nat) :
    (destructTrace k).Pairwise (fun x y => y < x) := by
  induction k with
  | zero => simp [destructTrace]
  | succ k ih =>
    refine List.Pairwise.cons ?_ ih
    intro x hx
    rw [destructTrace_mem] at hx
    omega

theorem SAO.construct_wf {T : Type} (n0 : Int) (junk : Int → T) :
    (SAO.construct n0 junk).wf := by
  unfold SAO.wf SAO.construct
  by_cases h : n0 > 0 <;> simp [h]

theorem SAO.set_ok {T : Type} (s : SAO T) (i : Int) (v : T) (s2 : SAO T)
    (h : s.set i v = .ok s2) :
    (0 ≤ i ∧ i < s.n) ∧ ∃ f, s.a = some f ∧
      s2 = { s with a := some (fun j => if j = i then v else f j) } := by
  unfold SAO.set at h
  split at h
  · cases ha : s.a with
    | some f =>
      rw [ha] at h
      refine ⟨by assumption, f, rfl, ?_⟩
      cases h
      rfl
    | none => rw [ha] at h; cases h
  · cases h

theorem SAO.set_get {T : Type} (s s2 : SAO T) (i : Int) (v : T)
    (h : s.set i v = .ok s2) : s2.get i = .ok v := by
  obtain ⟨hb, f, ha, hs2⟩ := SAO.set_ok s i v s2 h
  subst hs2
  unfold SAO.get
  rw [if_pos hb]
  simp

theorem SAO.copy_n {T : Type} (s : SAO T) (junk : Int → T) :
    (s.copy junk).n = s.n := by
  unfold SAO.copy SAO.copyFull
  by_cases h : s.n > 0 <;> cases hsrc : s.a <;> simp [hsrc, SAO.construct, h]

theorem SAO.copy_get {T : Type} (s : SAO T) (junk : Int → T) (j : Int)
    (hwf : s.wf) (hj : 0 ≤ j ∧ j < s.n) :
    (s.copy junk).get j = s.get j := by
  have hn : 0 < s.n := by omega
  have hsome : s.a.isSome = true := by
    rw [hwf]; simpa using hn
  obtain ⟨src, hsrc⟩ := Option.isSome_iff_exists.mp hsome
  have hoa : (SAO.construct s.n junk).a = some junk := by
    unfold SAO.construct
    simp [hn]
  unfold SAO.copy SAO.copyFull SAO.get
  rw [hsrc]
  simp only [hoa]
  have hcn : (SAO.construct s.n junk).n = s.n := rfl
  rw [if_pos (by rw [hcn]; exact hj), if_pos hj]
  rw [copyLoop_fst src s.n.toNat junk j]
  rw [if_pos (by constructor; exact hj.1; rw [Int.toNat_of_nonneg (le_of_lt hn)]; exact hj.2)]

theorem SAO.copyTrace_eq {T : Type} (s : SAO T) (junk : Int → T)
    (hwf : s.wf) (hn : 0 ≤ s.n) :
    s.copyTrace junk = (List.range s.n.toNat).reverse.map Int.ofNat := by
  by_cases h : 0 < s.n
  · have hsome : s.a.isSome = true := by rw [hwf]; simpa using h
    obtain ⟨src, hsrc⟩ := Option.isSome_iff_exists.mp hsome
    have hoa : (SAO.construct s.n junk).a = some junk := by
      unfold SAO.construct; simp [h]
    unfold SAO.copyTrace SAO.copyFull
    rw [hsrc]
    simp only [hoa]
    rw [copyLoop_snd src s.n.toNat junk, destructTrace_eq_revRange]
  · have h0 : s.n = 0 := by omega
    have hiss : s.a.isSome = false := by rw [hwf]; simp [h]
    have hnone : s.a = none := by
      cases ha : s.a with
      | none => rfl
      | some f => rw [ha] at hiss; cases hiss
    unfold SAO.copyTrace SAO.copyFull
    rw [hnone, h0]
    simp [SAO.construct]

theorem Heap.alloc_get_last {T : Type} (h : Heap T) (s : SAO T) :
    (h.alloc s).mem[h.mem.length]? = some { sao := s, rc := 1 } :=
  getElem_append_last h.mem _

theorem Heap.alloc_get_lt {T : Type} (h : Heap T) (s : SAO T) (l : Nat)
    (hl : l < h.mem.length) :
    (h.alloc s).mem[l]? = h.mem[l]? :=
  getElem_append_lt h.mem _ l hl

theorem Heap.setSAO_get_eq {T : Type} (h : Heap T) (l : Nat) (s : SAO T) :
    (h.setSAO l s).mem[l]? = (h.mem[l]?).map (fun e => { e with sao := s }) :=
  setEntry_getElem_eq h.mem l _

theorem Heap.setSAO_get_ne {T : Type} (h : Heap T) (l l' : Nat) (s : SAO T)
    (hne : l' ≠ l) :
    (h.setSAO l s).mem[l']? = h.mem[l']? :=
  setEntry_getElem_ne h.mem l l' _ hne

theorem SharedArray.get_some {T : Type} (h : Heap T) (l : Nat) (hdl : SharedHandle)
    (i : Int) (ho : hdl.obj = some l) :
    SharedArray.get h hdl i = match h.mem[l]? with
      | none => .error .nullAccess
      | some e => e.sao.get i := by
  unfold SharedArray.get
  rw [ho]

theorem SharedArray.get_eq_sao {T : Type} (h : Heap T) (l : Nat) (e : HeapEntry T)
    (hdl : SharedHandle) (i : Int) (ho : hdl.obj = some l) (he : h.mem[l]? = some e) :
    SharedArray.get h hdl i = e.sao.get i := by
  rw [SharedArray.get_some h l hdl i ho, he]

theorem SharedArray.size_some {T : Type} (h : Heap T) (l : Nat) (hdl : SharedHandle)
    (ho : hdl.obj = some l) :
    SharedArray.size h hdl = match h.mem[l]? with
      | none => .error .nullAccess
      | some e => .ok e.sao.size := by
  unfold SharedArray.size
  rw [ho]

theorem SharedArray.size_eq {T : Type} (h : Heap T) (l : Nat) (e : HeapEntry T)
    (hdl : SharedHandle) (ho : hdl.obj = some l) (he : h.mem[l]? = some e) :
    SharedArray.size h hdl = .ok e.sao.size := by
  rw [SharedArray.size_some h l hdl ho, he]

theorem SharedArray.set_some {T : Type} (h : Heap T) (l : Nat) (hdl : SharedHandle)
    (i : Int) (v : T) (ho : hdl.obj = some l) :
    SharedArray.set h hdl i v = match h.mem[l]? with
      | none => .error .nullAccess
      | some e => match e.sao.set i v with
        | .ok s => .ok (h.setSAO l s)
        | .error w => .error w := by
  unfold SharedArray.set
  rw [ho]

theorem SharedArray.set_err {T : Type} (h : Heap T) (l : Nat) (e : HeapEntry T)
    (hdl : SharedHandle) (i : Int) (v : T) (w : Violation)
    (ho : hdl.obj = some l) (he : h.mem[l]? = some e)
    (hs : e.sao.set i v = .error w) :
    SharedArray.set h hdl i v = .error w := by
  rw [SharedArray.set_some h l hdl i v ho, he]
  show (match e.sao.set i v with
    | Except.ok s => Except.ok (h.setSAO l s)
    | Except.error w2 => Except.error w2) = Except.error w
  rw [hs]

theorem SharedArray.set_ok_loc {T : Type} (h h2 : Heap T) (hdl : SharedHandle)
    (i : Int) (v : T) (hset : SharedArray.set h hdl i v = .ok h2) :
    ∃ l e s2, hdl.obj = some l ∧ h.mem[l]? = some e ∧ e.sao.set i v = .ok s2 ∧
      h2 = h.setSAO l s2 := by
  unfold SharedArray.set at hset
  split at hset
  · cases hset
  next l ho =>
    split at hset
    · cases hset
    next e he =>
      split at hset
      next s2 hs =>
        injection hset with hh
        exact ⟨l, e, s2, ho, he, hs, hh.symm⟩
      next w hw => cases hset

theorem SharedArray.get_congr {T : Type} (h h2 : Heap T) (hdl : SharedHandle) (j : Int)
    (hagree : ∀ l, hdl.obj = some l → h2.mem[l]? = h.mem[l]?) :
    SharedArray.get h2 hdl j = SharedArray.get h hdl j := by
  cases ho : hdl.obj with
  | none =>
    unfold SharedArray.get
    rw [ho]
  | some l =>
    rw [SharedArray.get_some h2 l hdl j ho, SharedArray.get_some h l hdl j ho,
        hagree l ho]

theorem SharedArray.set_get_shared {T : Type} (h h2 : Heap T) (A B : SharedHandle)
    (i : Int) (v : T) (hobj : B.obj = A.obj)
    (hset : SharedArray.set h A i v = .ok h2) :
    SharedArray.get h2 B i = .ok v := by
  obtain ⟨l, e, s2, ho, he, hs, hh2⟩ := SharedArray.set_ok_loc h h2 A i v hset
  subst hh2
  rw [SharedArray.get_some (h.setSAO l s2) l B i (by rw [hobj, ho])]
  rw [Heap.setSAO_get_eq, he]
  exact SAO.set_get e.sao s2 i v hs

theorem SharedArray.set_frame {T : Type} (h h2 : Heap T) (A : SharedHandle)
    (l : Nat) (i : Int) (v : T) (hA : A.obj = some l)
    (hset : SharedArray.set h A i v = .ok h2) (l' : Nat) (hne : l' ≠ l) :
    h2.mem[l']? = h.mem[l']? := by
  obtain ⟨l0, e, s2, ho, he, hs, hh2⟩ := SharedArray.set_ok_loc h h2 A i v hset
  have hl0 : l0 = l := by
    rw [hA] at ho
    injection ho with hh
    exact hh.symm
  subst hh2
  exact Heap.setSAO_get_ne h l0 l' s2 (by rw [hl0]; exact hne)

theorem getElem_lt_of_some {α : Type} (xs : List α) (l : Nat) (x : α)
    (h : xs[l]? = some x) : l < xs.length := by
  by_contra hc
  rw [List.getElem?_eq_none (by omega)] at h
  cases h

theorem SharedArray.init_none {T : Type} (h : Heap T) (hdl : SharedHandle) (n : Int)
    (junk : Int → T) (ho : hdl.obj = none) :
    SharedArray.init h hdl n junk
      = .ok (h.alloc (SAO.construct n junk), { obj := some h.mem.length }) := by
  unfold SharedArray.init
  rw [ho]

theorem SharedArray.init_bound {T : Type} (h : Heap T) (hdl : SharedHandle) (n : Int)
    (junk : Int → T) (l : Nat) (hl : hdl.obj = some l) :
    SharedArray.init h hdl n junk = .error .assertFail := by
  unfold SharedArray.init
  rw [hl]

theorem stepHandle_bound {T : Type} (h : Heap T) (hdl : SharedHandle) (op : HOp T)
    (hb : hdl.obj.isSome = true) : ((stepHandle h hdl op).2).obj.isSome = true := by
  cases op with
  | read i => exact hb
  | length => exact hb
  | copyOut => exact hb
  | write i v =>
    simp only [stepHandle]
    split
    · exact hb
    · exact hb
  | reinit n junk =>
    obtain ⟨l, hl⟩ := Option.isSome_iff_exists.mp hb
    simp only [stepHandle]
    split
    next r hr =>
      rw [SharedArray.init_bound h hdl n junk l hl] at hr
      cases hr
    next w hw => exact hb

/-! ## Claim theorems -/

/-- Claim C1 (sharing law): for every handle `A` bound to a store and
every handle `B` copy-constructed from `A`, `B` references the same
backing store as `A`, and a mutation successfully written through `A` at
an index is read back through `B` at that index, and vice versa. -/
theorem C1_sharing {T : Type} (h : Heap T) (A : SharedHandle) (l : Nat)
    (i : Int) (v : T) (hA : A.obj = some l) :
    (SharedHandle.copyCtor h A).2.obj = A.obj ∧
    (∀ h2, SharedArray.set (SharedHandle.copyCtor h A).1 A i v = .ok h2 →
      SharedArray.get h2 (SharedHandle.copyCtor h A).2 i = .ok v) ∧
    (∀ h2, SharedArray.set (SharedHandle.copyCtor h A).1
        (SharedHandle.copyCtor h A).2 i v = .ok h2 →
      SharedArray.get h2 A i = .ok v) := by
  have hc : (SharedHandle.copyCtor h A).2.obj = A.obj := by
    unfold SharedHandle.copyCtor
    rw [hA]
  exact ⟨hc,
    fun h2 hset => SharedArray.set_get_shared _ h2 A _ i v hc hset,
    fun h2 hset => SharedArray.set_get_shared _ h2 _ A i v hc.symm hset⟩

/-- Claim C3 (one-time initialization): on an uninitialized handle,
`init(n)` binds the handle to a fresh backing store of `n` elements (and
the assertion's failure branch is not taken); on an already-bound handle,
`init` violates the debug assertion, so the existing binding is never
silently replaced. -/
theorem C3_init_once {T : Type} (h : Heap T) (hdl : SharedHandle) (n : Int)
    (junk : Int → T) :
    (hdl.obj = none →
      SharedArray.init h hdl n junk
        = .ok (h.alloc (SAO.construct n junk), { obj := some h.mem.length }) ∧
      ∀ r, SharedArray.init h hdl n junk = .ok r →
        SharedArray.size r.1 r.2 = .ok n) ∧
    (hdl.obj ≠ none → SharedArray.init h hdl n junk = .error .assertFail) := by
  constructor
  · intro ho
    have hinit := SharedArray.init_none h hdl n junk ho
    refine ⟨hinit, fun r hr => ?_⟩
    rw [hinit] at hr
    injection hr with hh
    subst hh
    rw [SharedArray.size_eq (h.alloc (SAO.construct n junk)) h.mem.length
      { sao := SAO.construct n junk, rc := 1 } { obj := some h.mem.length } rfl
      (Heap.alloc_get_last h (SAO.construct n junk))]
    rfl
  · intro ho
    cases hoo : hdl.obj with
    | none => exact absurd hoo ho
    | some l => exact SharedArray.init_bound h hdl n junk l hoo

/-- Claim C5 (fresh-bind length): for every `count ≥ 0`, a handle freshly
bound to a new backing store of `count` elements — via the
`SharedArray(int)` constructor or via `init` on a default-constructed
handle — reports `size() == count`. -/
theorem C5_fresh_bind_length {T : Type} (h : Heap T) (n : Int) (junk : Int → T)
    (hn : 0 ≤ n) :
    SharedArray.size (SharedArray.mkN h n junk).1 (SharedArray.mkN h n junk).2
      = .ok n ∧
    SharedArray.init h SharedArray.mkEmpty n junk = .ok (SharedArray.mkN h n junk) ∧
    (∀ r, SharedArray.init h SharedArray.mkEmpty n junk = .ok r →
      SharedArray.size r.1 r.2 = .ok n) := by
  have hsz : SharedArray.size (SharedArray.mkN h n junk).1
      (SharedArray.mkN h n junk).2 = .ok n := by
    show SharedArray.size (h.alloc (SAO.construct n junk))
      { obj := some h.mem.length } = .ok n
    rw [SharedArray.size_eq (h.alloc (SAO.construct n junk)) h.mem.length
      { sao := SAO.construct n junk, rc := 1 } { obj := some h.mem.length } rfl
      (Heap.alloc_get_last h (SAO.construct n junk))]
    rfl
  have hinit := SharedArray.init_none h SharedArray.mkEmpty n junk rfl
  refine ⟨hsz, hinit, fun r hr => ?_⟩
  rw [hinit] at hr
  injection hr with hh
  subst hh
  exact hsz

/-- Claim C6 (write-then-read round trip): a value successfully written
through the mutable `operator[]` of an initialized handle at index `i`,
then read back through `operator[]` on the same handle at `i` with no
intervening operation, is returned exactly. -/
theorem C6_write_then_read {T : Type} (h h2 : Heap T) (hdl : SharedHandle)
    (i : Int) (v : T) (hset : SharedArray.set h hdl i v = .ok h2) :
    SharedArray.get h2 hdl i = .ok v :=
  SharedArray.set_get_shared h h2 hdl hdl i v rfl hset

/-- Claim C8 (no un-binding): once a handle references a backing store,
no sequence of subsequent operations (element reads and writes, `size()`,
copy-construction of another handle from it, attempted re-`init`) ever
returns it to the uninitialized state. -/
theorem C8_no_unbinding {T : Type} (h : Heap T) (hdl : SharedHandle)
    (ops : List (HOp T)) (hb : hdl.obj.isSome = true) :
    ((runOps h hdl ops).2).obj.isSome = true := by
  induction ops generalizing h hdl with
  | nil => exact hb
  | cons op ops ih => exact ih _ _ (stepHandle_bound h hdl op hb)

/-- Claim C2 (deep-copy independence): forcing a deep copy of the store
at location `l` (with `count ≥ 0` elements) yields a brand-new store at a
fresh location whose length equals the source's and whose element at
every valid index is a value-copy of the source's element there, copied
in reverse index order; and a subsequent mutation through any handle to
the source store is not observable through the handle to the copy. -/
theorem C2_copy_independence {T : Type} (h : Heap T) (l : Nat) (e : HeapEntry T)
    (junk : Int → T) (i : Int) (v : T)
    (hl : h.mem[l]? = some e) (hn : 0 ≤ e.sao.n) (hwf : e.sao.wf) :
    (Heap.copyStore h l junk).2.obj = some h.mem.length ∧
    l < h.mem.length ∧
    SharedArray.size (Heap.copyStore h l junk).1 (Heap.copyStore h l junk).2
      = .ok e.sao.n ∧
    (∀ j, 0 ≤ j → j < e.sao.n →
      SharedArray.get (Heap.copyStore h l junk).1 (Heap.copyStore h l junk).2 j
        = e.sao.get j) ∧
    e.sao.copyTrace junk = (List.range e.sao.n.toNat).reverse.map Int.ofNat ∧
    (∀ A : SharedHandle, A.obj = some l → ∀ h2,
      SharedArray.set (Heap.copyStore h l junk).1 A i v = .ok h2 →
      ∀ j, SharedArray.get h2 (Heap.copyStore h l junk).2 j
        = SharedArray.get (Heap.copyStore h l junk).1 (Heap.copyStore h l junk).2 j) := by
  have hcs : Heap.copyStore h l junk
      = (h.alloc (e.sao.copy junk), { obj := some h.mem.length }) := by
    unfold Heap.copyStore
    rw [hl]
  have hlen : l < h.mem.length := getElem_lt_of_some h.mem l e hl
  have hlast : (h.alloc (e.sao.copy junk)).mem[h.mem.length]?
      = some { sao := e.sao.copy junk, rc := 1 } :=
    Heap.alloc_get_last h (e.sao.copy junk)
  refine ⟨by rw [hcs], hlen, ?_, ?_, SAO.copyTrace_eq e.sao junk hwf hn, ?_⟩
  · rw [hcs]
    rw [SharedArray.size_eq (h.alloc (e.sao.copy junk)) h.mem.length
      { sao := e.sao.copy junk, rc := 1 } { obj := some h.mem.length } rfl hlast]
    show Except.ok (e.sao.copy junk).n = Except.ok e.sao.n
    rw [SAO.copy_n]
  · intro j hj0 hj1
    rw [hcs]
    rw [SharedArray.get_eq_sao (h.alloc (e.sao.copy junk)) h.mem.length
      { sao := e.sao.copy junk, rc := 1 } { obj := some h.mem.length } j rfl hlast]
    exact SAO.copy_get e.sao junk j hwf ⟨hj0, hj1⟩
  · intro A hA h2 hset j
    rw [hcs] at hset ⊢
    refine SharedArray.get_congr (h.alloc (e.sao.copy junk)) h2
      { obj := some h.mem.length } j (fun l2 hl2 => ?_)
    have hl2e : l2 = h.mem.length := by
      injection hl2 with hh
      exact hh.symm
    subst hl2e
    exact SharedArray.set_frame (h.alloc (e.sao.copy junk)) h2 A l i v hA hset
      h.mem.length (by omega)

/-- Claim C4 (zero-length law): a handle bound to a store of `count == 0`
elements reports `size() == 0`, every element access through it (read or
write, at any index) fails the bounds assertion, the store's construction
takes the no-allocation branch (NULL buffer) and its destruction destroys
no element and frees nothing. -/
theorem C4_zero_length {T : Type} (h : Heap T) (junk : Int → T) (i : Int) (v : T) :
    SharedArray.size (SharedArray.mkN h 0 junk).1 (SharedArray.mkN h 0 junk).2
      = .ok 0 ∧
    SharedArray.get (SharedArray.mkN h 0 junk).1 (SharedArray.mkN h 0 junk).2 i
      = .error .assertFail ∧
    SharedArray.set (SharedArray.mkN h 0 junk).1 (SharedArray.mkN h 0 junk).2 i v
      = .error .assertFail ∧
    (SAO.construct (0 : Int) junk).a = none ∧
    (SAO.construct (0 : Int) junk).destruct = ([], false) := by
  have hlast : (h.alloc (SAO.construct (0 : Int) junk)).mem[h.mem.length]?
      = some { sao := SAO.construct (0 : Int) junk, rc := 1 } :=
    Heap.alloc_get_last h (SAO.construct (0 : Int) junk)
  have hn0 : (SAO.construct (0 : Int) junk).n = 0 := rfl
  have hget : (SAO.construct (0 : Int) junk).get i = .error .assertFail := by
    unfold SAO.get
    split
    next hcond => exfalso; omega
    next hcond => rfl
  have hsetx : (SAO.construct (0 : Int) junk).set i v = .error .assertFail := by
    unfold SAO.set
    split
    next hcond => exfalso; omega
    next hcond => rfl
  refine ⟨?_, ?_, ?_, ?_, ?_⟩
  · show SharedArray.size (h.alloc (SAO.construct (0 : Int) junk))
      { obj := some h.mem.length } = .ok 0
    rw [SharedArray.size_eq (h.alloc (SAO.construct (0 : Int) junk)) h.mem.length
      { sao := SAO.construct (0 : Int) junk, rc := 1 }
      { obj := some h.mem.length } rfl hlast]
    rfl
  · show SharedArray.get (h.alloc (SAO.construct (0 : Int) junk))
      { obj := some h.mem.length } i = .error .assertFail
    rw [SharedArray.get_eq_sao (h.alloc (SAO.construct (0 : Int) junk)) h.mem.length
      { sao := SAO.construct (0 : Int) junk, rc := 1 }
      { obj := some h.mem.length } i rfl hlast]
    exact hget
  · show SharedArray.set (h.alloc (SAO.construct (0 : Int) junk))
      { obj := some h.mem.length } i v = .error .assertFail
    exact SharedArray.set_err (h.alloc (SAO.construct (0 : Int) junk)) h.mem.length
      { sao := SAO.construct (0 : Int) junk, rc := 1 } { obj := some h.mem.length }
      i v .assertFail rfl hlast hsetx
  · unfold SAO.construct
    rw [if_neg (show ¬((0 : Int) > 0) by omega)]
  · unfold SAO.destruct
    split
    next hcond => exfalso; omega
    next => rfl

/-- Claim C7 (teardown contract): when a store with `count > 0` is
destroyed, exactly its `count` elements are destructed, each exactly
once, in reverse index order (`count-1` down to `0`), and the raw
storage is released; when `count == 0`, destruction destructs no element
and frees nothing. -/
theorem C7_teardown {T : Type} (s : SAO T) :
    (0 < s.n →
      s.destruct.2 = true ∧
      s.destruct.1 = (List.range s.n.toNat).reverse.map Int.ofNat ∧
      s.destruct.1.Nodup ∧
      (∀ i : Int, i ∈ s.destruct.1 ↔ 0 ≤ i ∧ i < s.n) ∧
      s.destruct.1.Pairwise (fun x y => y < x)) ∧
    (s.n = 0 → s.destruct = ([], false)) := by
  constructor
  · intro hpos
    have hd : s.destruct = (destructTrace s.n.toNat, true) := by
      unfold SAO.destruct
      rw [if_pos hpos]
    rw [hd]
    refine ⟨rfl, destructTrace_eq_revRange _, destructTrace_nodup _, ?_,
      destructTrace_pairwise _⟩
    intro i
    show i ∈ destructTrace s.n.toNat ↔ 0 ≤ i ∧ i < s.n
    rw [destructTrace_mem, Int.toNat_of_nonneg (le_of_lt hpos)]
  · intro h0
    unfold SAO.destruct
    rw [if_neg (show ¬(0 < s.n) by omega)]

/-- Claim C9 (negative-count edge case): for `n < 0`, constructing
`SAO(n)` is not rejected and allocates no buffer (the same branch as
`n == 0`), `size()` returns the negative `n` unchanged, and destruction
destructs no element and frees nothing — the invariant `n ≥ 0` is not
enforced by the code. -/
theorem C9_negative_count {T : Type} (junk : Int → T) (n : Int) (hn : n < 0) :
    (SAO.construct n junk).a = none ∧
    (SAO.construct n junk).size = n ∧
    (SAO.construct n junk).destruct = ([], false) := by
  refine ⟨?_, rfl, ?_⟩
  · unfold SAO.construct
    rw [if_neg (show ¬(n > 0) by omega)]
  · unfold SAO.destruct
    rw [if_neg (show ¬(0 < (SAO.construct n junk).n) by
      rw [show (SAO.construct n junk).n = n from rfl]; omega)]

/-- Claim C10 (copy frame property): forcing a deep copy of the store at
location `l` is read-only on the pre-existing heap — every pre-existing
location (the source in particular) holds exactly the same entry
afterwards, so the source store's length and every element value read
through a handle to it are unchanged; only the newly allocated store is
written. -/
theorem C10_copy_frame {T : Type} (h : Heap T) (l : Nat) (junk : Int → T) :
    (∀ l2, l2 < h.mem.length →
      (Heap.copyStore h l junk).1.mem[l2]? = h.mem[l2]?) ∧
    (∀ j, SharedArray.get (Heap.copyStore h l junk).1 { obj := some l } j
      = SharedArray.get h { obj := some l } j) ∧
    SharedArray.size (Heap.copyStore h l junk).1 { obj := some l }
      = SharedArray.size h { obj := some l } := by
  cases he : h.mem[l]? with
  | none =>
    have hcs : Heap.copyStore h l junk = (h, { obj := none }) := by
      unfold Heap.copyStore
      rw [he]
    rw [hcs]
    exact ⟨fun _ _ => rfl, fun _ => rfl, rfl⟩
  | some e =>
    have hcs : Heap.copyStore h l junk
        = (h.alloc (e.sao.copy junk), { obj := some h.mem.length }) := by
      unfold Heap.copyStore
      rw [he]
    rw [hcs]
    have hframe : ∀ l2, l2 < h.mem.length →
        (h.alloc (e.sao.copy junk)).mem[l2]? = h.mem[l2]? :=
      fun l2 hl2 => Heap.alloc_get_lt h (e.sao.copy junk) l2 hl2
    have hl : l < h.mem.length := getElem_lt_of_some h.mem l e he
    refine ⟨hframe, fun j => ?_, ?_⟩
    · refine SharedArray.get_congr h (h.alloc (e.sao.copy junk))
        { obj := some l } j (fun l2 hl2 => ?_)
      have hl2e : l = l2 := by injection hl2
      subst hl2e
      exact hframe l hl
    · rw [SharedArray.size_eq (h.alloc (e.sao.copy junk)) l e { obj := some l }
        rfl (by rw [hframe l hl]; exact he),
        SharedArray.size_eq h l e { obj := some l } rfl he]

/-! ## Witnesses -/

/-- Witness for C1 at a concrete one-element store: writing 5 through the
original handle is read back through the copy-constructed handle. -/
theorem C1_sharing_witness :
    SharedArray.get
      { mem := [{ sao := { a := some (fun j => if j = 0 then (5 : Int) else 0),
                           n := 1 }, rc := 2 }] }
      (SharedHandle.copyCtor
        { mem := [{ sao := { a := some (fun _ => (0 : Int)), n := 1 }, rc := 1 }] }
        { obj := some 0 }).2 0 = .ok 5 :=
  (C1_sharing
    { mem := [{ sao := { a := some (fun _ => (0 : Int)), n := 1 }, rc := 1 }] }
    { obj := some 0 } 0 0 5 rfl).2.1
    { mem := [{ sao := { a := some (fun j => if j = 0 then (5 : Int) else 0),
                         n := 1 }, rc := 2 }] } rfl

/-- Witness for C2 at a concrete one-element store: the copy's element 0
equals the source store's element 0. -/
theorem C2_copy_independence_witness :
    SharedArray.get
      (Heap.copyStore
        { mem := [{ sao := { a := some (fun _ => (4 : Int)), n := 1 }, rc := 1 }] }
        0 (fun _ => 9)).1
      (Heap.copyStore
        { mem := [{ sao := { a := some (fun _ => (4 : Int)), n := 1 }, rc := 1 }] }
        0 (fun _ => 9)).2 0
      = ({ a := some (fun _ => (4 : Int)), n := 1 } : SAO Int).get 0 :=
  (C2_copy_independence
    { mem := [{ sao := { a := some (fun _ => (4 : Int)), n := 1 }, rc := 1 }] }
    0 { sao := { a := some (fun _ => (4 : Int)), n := 1 }, rc := 1 }
    (fun _ => 9) 0 5 rfl (by decide) rfl).2.2.2.1 0 (by decide) (by decide)

/-- Witness for C3: `init` on a handle already bound to location 0 fails
the assertion. -/
theorem C3_init_once_witness :
    SharedArray.init ({ mem := [] } : Heap Int) { obj := some 0 } 3 (fun _ => 0)
      = .error .assertFail :=
  (C3_init_once { mem := [] } { obj := some 0 } 3 (fun _ => 0)).2 (by decide)

/-- Witness for C4: a freshly bound zero-length handle reports size 0. -/
theorem C4_zero_length_witness :
    SharedArray.size
      (SharedArray.mkN ({ mem := [] } : Heap Int) 0 (fun _ => 0)).1
      (SharedArray.mkN ({ mem := [] } : Heap Int) 0 (fun _ => 0)).2 = .ok 0 :=
  (C4_zero_length { mem := [] } (fun _ => 0) 0 0).1

/-- Witness for C5: a handle freshly bound to a 3-element store reports
size 3. -/
theorem C5_fresh_bind_length_witness :
    SharedArray.size
      (SharedArray.mkN ({ mem := [] } : Heap Int) 3 (fun _ => 0)).1
      (SharedArray.mkN ({ mem := [] } : Heap Int) 3 (fun _ => 0)).2 = .ok 3 :=
  (C5_fresh_bind_length { mem := [] } 3 (fun _ => 0) (by decide)).1

/-- Witness for C6: writing 7 at index 0 and reading it back through the
same handle returns 7. -/
theorem C6_write_then_read_witness :
    SharedArray.get
      { mem := [{ sao := { a := some (fun j => if j = 0 then (7 : Int) else 0),
                           n := 1 }, rc := 1 }] }
      { obj := some 0 } 0 = .ok 7 :=
  C6_write_then_read
    { mem := [{ sao := { a := some (fun _ => (0 : Int)), n := 1 }, rc := 1 }] }
    { mem := [{ sao := { a := some (fun j => if j = 0 then (7 : Int) else 0),
                         n := 1 }, rc := 1 }] }
    { obj := some 0 } 0 7 rfl

/-- Witness for C7: destroying a 2-element store destructs indices in the
order 1, 0. -/
theorem C7_teardown_witness :
    ({ a := some (fun _ => (0 : Int)), n := 2 } : SAO Int).destruct.1
      = (List.range ((2 : Int)).toNat).reverse.map Int.ofNat :=
  ((C7_teardown { a := some (fun _ => (0 : Int)), n := 2 }).1 (by decide)).2.1

/-- Witness for C8: a bound handle stays bound across a concrete sequence
of operations including an attempted re-`init`. -/
theorem C8_no_unbinding_witness :
    ((runOps
      { mem := [{ sao := { a := some (fun _ => (0 : Int)), n := 1 }, rc := 1 }] }
      { obj := some 0 }
      [HOp.write 0 5, HOp.length, HOp.reinit 4 (fun _ => 0), HOp.copyOut,
        HOp.read 0]).2).obj.isSome = true :=
  C8_no_unbinding _ _ _ rfl

/-- Witness for C9: `SAO(-1)` reports size -1. -/
theorem C9_negative_count_witness :
    (SAO.construct (-1 : Int) (fun _ => (0 : Int))).size = -1 :=
  (C9_negative_count (fun _ => (0 : Int)) (-1) (by decide)).2.1

/-- Witness for C10: copying the store at location 0 leaves the entry at
location 0 unchanged. -/
theorem C10_copy_frame_witness :
    (Heap.copyStore
      { mem := [{ sao := { a := some (fun _ => (3 : Int)), n := 1 }, rc := 1 }] }
      0 (fun _ => 9)).1.mem[0]?
      = ({ mem := [{ sao := { a := some (fun _ => (3 : Int)), n := 1 }, rc := 1 }] }
          : Heap Int).mem[0]? :=
  (C10_copy_frame
    { mem := [{ sao := { a := some (fun _ => (3 : Int)), n := 1 }, rc := 1 }] }
    0 (fun _ => 9)).1 0 (by decide)
